import Mathlib

/-!
Shallow embedding of the ShockFlip research backtester
(src/core/shockflip_detector.py, src/core/backtest.py, and the
profit-factor helper of src/scripts/analyze_v13_filters.py).

Prices, z-scores and P&L are modelled as exact rationals (`Rat`); a
pandas NaN entry is modelled as `Option.none` where the source tests
for it (`pd.isna`, `np.isfinite`).  The bar series is a `List` ordered
by time; integer bar indices replace DataFrame positions.
-/

namespace ShockFlip

/-- Configuration of the detector, mirroring `ShockFlipConfig` in
src/core/shockflip_detector.py.  The `source` column-selection field is
omitted: the embedding receives the selected z-score series directly.
`persistence_min` embeds the field named persistence ratio in the
source. -/
structure ShockFlipConfig where
  z_window : Nat
  z_band : Rat
  jump_band : Rat
  persistence_bars : Nat
  persistence_min : Rat
  dynamic_enabled : Bool
  dynamic_percentile : Rat
  require_extreme : Bool
deriving DecidableEq

/-- Insert a rational into an already sorted list (ascending). -/
def insertSorted (x : Rat) : List Rat → List Rat
  | [] => [x]
  | y :: ys => if x ≤ y then x :: y :: ys else y :: insertSorted x ys

/-- Ascending insertion sort, used to embed the order statistics that
pandas computes for a rolling quantile. -/
def sortAsc (xs : List Rat) : List Rat := xs.foldr insertSorted []

/-- Linear-interpolation quantile of a list, as pandas computes it
(default interpolation of `Rolling.quantile`): position q*(m-1) in the
sorted sample, interpolating between the two neighbouring order
statistics. -/
def quantileLinear (xs : List Rat) (q : Rat) : Rat :=
  let s := sortAsc xs
  let m := s.length
  if m = 0 then 0
  else
    let pos : Rat := q * ((m - 1 : Nat) : Rat)
    let lo : Nat := pos.floor.toNat
    let frac : Rat := pos - (lo : Rat)
    let a := s.getD lo 0
    let b := s.getD (lo + 1) a
    a + frac * (b - a)

/-- Embedding of `_compute_dynamic_jump_threshold`
(src/core/shockflip_detector.py lines 22-38): when dynamic thresholds
are disabled the result is the constant jump-band series; otherwise,
per index, the rolling p-quantile of |z| over a window of 4*z_window
bars with min_periods = z_window (fewer bars give NaN, filled with the
jump band), maxed with the static jump band. -/
def compute_dynamic_jump_threshold (z : List Rat) (cfg : ShockFlipConfig) : List Rat :=
  if cfg.dynamic_enabled = false then List.replicate z.length cfg.jump_band
  else
    (List.range z.length).map fun i =>
      let span := min (cfg.z_window * 4) (i + 1)
      let lo := i + 1 - span
      let window := ((z.map (fun x => |x|)).drop lo).take span
      if window.length < cfg.z_window then cfg.jump_band
      else max cfg.jump_band (quantileLinear window cfg.dynamic_percentile)

/-- Embedding of `np.sign` on the z value of a bar. -/
def signCode (x : Rat) : Int := if 0 < x then 1 else if x < 0 then -1 else 0

/-- Number of bars in the trailing persistence window ending at `i`
(current bar included) whose z has the same sign as z(i) and magnitude
at least the z-band; the numerator of `ok.mean()` in
src/core/shockflip_detector.py lines 82-91. -/
def persCount (cfg : ShockFlipConfig) (z : List Rat) (i : Nat) : Nat :=
  (List.range cfg.persistence_bars).countP fun k =>
    let zj := z.getD (i + 1 - cfg.persistence_bars + k) 0
    signCode zj == signCode (z.getD i 0) && decide (cfg.z_band ≤ |zj|)

/-- Persistence gate at index `i` (src/core/shockflip_detector.py lines
77-91): false while fewer than `persistence_bars` bars are available
(the loop skips those indices, and an empty window would make pandas
compare NaN, which is false); otherwise the window fraction test. -/
def persAt (cfg : ShockFlipConfig) (z : List Rat) (i : Nat) : Bool :=
  if cfg.persistence_bars = 0 then false
  else if i + 1 < cfg.persistence_bars then false
  else decide (cfg.persistence_min ≤ (persCount cfg z i : Rat) / (cfg.persistence_bars : Rat))

/-- Per-bar signal of `detect_shockflip_signals`
(src/core/shockflip_detector.py lines 66-117): gates A (jump), B
(band), C (persistence) and D (location) combined; the long mask is
assigned 1 first and the short mask -1 afterwards, so a short
condition wins where both were set (they are disjoint since they need
opposite signs of z). -/
def shockflip_signal (cfg : ShockFlipConfig) (z : List Rat)
    (at_upper at_lower : List Bool) (i : Nat) : Int :=
  let zi := z.getD i 0
  let thr := (compute_dynamic_jump_threshold z cfg).getD i 0
  let cond_jump := decide (thr ≤ |zi|)
  let cond_band := decide (cfg.z_band ≤ |zi|)
  let pers := persAt cfg z i
  let long_cond := decide (0 < zi) && cond_jump && cond_band && pers &&
    (!cfg.require_extreme || at_lower.getD i false)
  let short_cond := decide (zi < 0) && cond_jump && cond_band && pers &&
    (!cfg.require_extreme || at_upper.getD i false)
  if short_cond then -1 else if long_cond then 1 else 0

end ShockFlip

namespace Backtest

/-- Per-side barrier multipliers, mirroring the risk config consumed by
`_simulate_trades` (tp_mult and sl_mult in ATR units). -/
structure SideRisk where
  tp_mult : Rat
  sl_mult : Rat
deriving DecidableEq

/-- Risk configuration fields used by the simulator. -/
structure RiskConfig where
  cooldown_bars : Nat
  long : SideRisk
  short : SideRisk
deriving DecidableEq

/-- One input bar of the simulator: the OHLC fields it reads, the
precomputed detector signal, the entry ATR (none models a NaN, i.e. a
non-finite value), and the optional hypothesis-filter features (none
models a NaN that `pd.isna` detects). -/
structure Bar where
  high : Rat
  low : Rat
  close : Rat
  signal : Int
  atr : Option Rat
  prior_flow_sign : Option Int
  price_flow_div : Option Rat
  atr_pct : Option Rat
deriving DecidableEq

/-- Backtest configuration as consumed by `_simulate_trades`
(src/core/backtest.py): the static dataclass fields plus the optional
dynamically attached attributes, where `none` models an absent
attribute (`getattr` default None). -/
structure BacktestConfig where
  risk : RiskConfig
  taker_bp : Rat
  slippage_bp : Rat
  h1_prior_flow_required_sign : Option Int
  h2_div_mode : Option String
  h2_div_extreme_threshold : Option Rat
  h2_div_dead_zone_low : Option Rat
  h2_div_dead_zone_high : Option Rat
  h3_atr_pct_low : Option Rat
  h3_atr_pct_high : Option Rat
  mfe_breakeven_r : Option Rat
  trailing_enabled : Bool
  trailing_arm_r : Option Rat
  trailing_floor_r : Option Rat
  trailing_gap_r : Option Rat
deriving DecidableEq

/-- Modelled from the spec: the management time-stop parameters
(management.time_stop_bars and management.time_stop_r of the
configuration surface).  The code implementing the time-stop overlay is
not among the sources under src/; spec section 4.4 step 2 defines it. -/
structure TimeStopConfig where
  time_stop_bars : Nat
  time_stop_r : Rat
deriving DecidableEq

/-- Modelled from the spec: `build_barriers` lives in
src/core/barriers.py, which is absent from the sources; spec section
4.3 defines it.  TP = entry + side*ATR*tp_mult, SL = entry -
side*ATR*sl_mult; long TP hit when high >= TP and long SL hit when low
<= SL, short mirrored.  The source guard `if tp is None or sl is None`
has no corresponding case here because the spec defines the levels
unconditionally. -/
def build_barriers (side : Int) (entry atr : Rat) (risk : RiskConfig)
    (high low : Rat) : Rat × Rat × Bool × Bool :=
  let sr := if side = 1 then risk.long else risk.short
  let tp := entry + (side : Rat) * atr * sr.tp_mult
  let sl := entry - (side : Rat) * atr * sr.sl_mult
  let hit_tp := if side = 1 then decide (tp ≤ high) else decide (low ≤ tp)
  let hit_sl := if side = 1 then decide (low ≤ sl) else decide (sl ≤ high)
  (tp, sl, hit_tp, hit_sl)

/-- Modelled from the spec: `compute_trade_pnl` lives in the missing
src/core/barriers.py; spec sections 3 and 6 say the realized P&L is the
side-adjusted price move with taker fees and slippage (both in basis
points) applied to the traded notional. -/
def compute_trade_pnl (side : Int) (entry_price exit_price : Rat)
    (taker_bp slippage_bp : Rat) : Rat :=
  (side : Rat) * (exit_price - entry_price) -
    (taker_bp + slippage_bp) / 10000 * (entry_price + exit_price)

/-- Immutable per-trade parameters fixed at entry (entry bar index and
close, side, entry ATR), together with the configuration and the
optional spec-modelled time-stop overlay (`none` reproduces
src/core/backtest.py exactly). -/
structure TradeParams where
  cfg : BacktestConfig
  ts : Option TimeStopConfig
  side : Int
  entry_idx : Nat
  entry_price : Rat
  atr : Rat
deriving DecidableEq

/-- Risk per unit: entry ATR times the side-specific SL multiplier
(src/core/backtest.py lines 162-163). -/
def riskPerUnit (ps : TradeParams) : Rat :=
  ps.atr * (if ps.side = 1 then ps.cfg.risk.long.sl_mult else ps.cfg.risk.short.sl_mult)

/-- Mutable open-position state carried across the bars of one trade
(src/core/backtest.py lines 148-175). -/
structure OpenState where
  best_fav : Rat
  worst_adv : Rat
  time_to_mfe : Nat
  be_active : Bool
  trailing_armed : Bool
  trail_sl_price : Option Rat
deriving DecidableEq

/-- Open-position state at entry: zero excursions, inactive breakeven
and trailing state. -/
def initState : OpenState :=
  { best_fav := 0, worst_adv := 0, time_to_mfe := 0,
    be_active := false, trailing_armed := false, trail_sl_price := none }

/-- Excursion tracking for bar `j` of a trade entered at
`ps.entry_idx` (src/core/backtest.py lines 181-193). -/
def updateExcursions (ps : TradeParams) (j : Nat) (bar : Bar) (st : OpenState) : OpenState :=
  let fav := (ps.side : Rat) * (bar.high - ps.entry_price)
  let adv := (ps.side : Rat) * (bar.low - ps.entry_price)
  let st1 := if st.best_fav < fav then
      { st with best_fav := fav, time_to_mfe := j - ps.entry_idx } else st
  if adv < st1.worst_adv then { st1 with worst_adv := adv } else st1

/-- Breakeven activation (src/core/backtest.py lines 195-203): once the
best favourable excursion reaches the configured threshold in R units,
`be_active` latches on. -/
def updateBE (ps : TradeParams) (st : OpenState) : OpenState :=
  match ps.cfg.mfe_breakeven_r with
  | none => st
  | some thr =>
      if st.be_active = false ∧ 0 < riskPerUnit ps ∧
          thr * riskPerUnit ps ≤ st.best_fav then
        { st with be_active := true }
      else st

/-- Trailing-stop arming and ratcheting (src/core/backtest.py lines
205-224): arm once the best MFE in R units reaches the arm threshold;
while armed, ratchet the trailing level towards
entry + side*max(floor_r, best_mfe_r - gap_r)*risk_per_unit, by max for
longs and min for shorts. -/
def updateTrailing (ps : TradeParams) (st : OpenState) : OpenState :=
  if ps.cfg.trailing_enabled then
    match ps.cfg.trailing_arm_r with
    | none => st
    | some armR =>
        if 0 < riskPerUnit ps then
          let bestR := st.best_fav / riskPerUnit ps
          let st1 := if st.trailing_armed = false ∧ armR ≤ bestR then
              { st with trailing_armed := true } else st
          if st1.trailing_armed then
            let floorR := ps.cfg.trailing_floor_r.getD 0
            let gapR := ps.cfg.trailing_gap_r.getD 0
            let targetR := max floorR (bestR - gapR)
            let cand := if ps.side = 1 then ps.entry_price + targetR * riskPerUnit ps
              else ps.entry_price - targetR * riskPerUnit ps
            let newTrail := match st1.trail_sl_price with
              | none => cand
              | some t => if ps.side = 1 then max t cand else min t cand
            { st1 with trail_sl_price := some newTrail }
          else st1
        else st
  else st

/-- Fixed barrier data for a bar of an open trade: `build_barriers`
applied to the entry side, entry price, and entry ATR
(src/core/backtest.py lines 226-233). -/
def barrierData (ps : TradeParams) (bar : Bar) : Rat × Rat × Bool × Bool :=
  build_barriers ps.side ps.entry_price ps.atr ps.cfg.risk bar.high bar.low

/-- Effective stop level: the fixed SL, ratcheted to entry while
breakeven is active and towards the trailing level while armed
(src/core/backtest.py lines 238-249). -/
def slEffOf (ps : TradeParams) (st : OpenState) (sl : Rat) : Rat :=
  let s1 := if st.be_active then
      (if ps.side = 1 then max sl ps.entry_price else min sl ps.entry_price)
    else sl
  if st.trailing_armed then
    match st.trail_sl_price with
    | some t => if ps.side = 1 then max s1 t else min s1 t
    | none => s1
  else s1

/-- Hit test of the effective stop (src/core/backtest.py line 252). -/
def hitSlEff (ps : TradeParams) (bar : Bar) (se : Rat) : Bool :=
  if ps.side = 1 then decide (bar.low ≤ se) else decide (se ≤ bar.high)

/-- Absolute tolerance of the entry comparison, embedding
`np.isclose(sl_eff, entry_price, rtol=0.0, atol=1e-8)`. -/
def beTol : Rat := 1 / 100000000

/-- Result label of a stop-triggered exit (src/core/backtest.py lines
259-265 and 278-284): BE when the effective stop is within tolerance of
entry, TP when it is on the profitable side, else SL. -/
def stopLabel (ps : TradeParams) (se : Rat) : String :=
  if |se - ps.entry_price| ≤ beTol then "BE"
  else if ps.side = 1 then (if ps.entry_price ≤ se then "TP" else "SL")
  else (if se ≤ ps.entry_price then "TP" else "SL")

/-- A resolved exit: bar index, exit price and result label. -/
structure ExitRec where
  exit_idx : Nat
  exit_price : Rat
  result : String
deriving DecidableEq

/-- Barrier evaluation for one bar of an open trade
(src/core/backtest.py lines 195-288, everything after the excursion
update): breakeven and trailing updates, barrier construction,
effective-stop recomputation, and the exit decision with its tie-break
(both hit: label by the effective stop relative to entry, exit at the
effective stop; TP alone: exit at TP; stop alone: label by the same
rule, exit at the effective stop). -/
def stepCore (ps : TradeParams) (j : Nat) (bar : Bar) (st1 : OpenState) :
    Option ExitRec × OpenState :=
  let st3 := updateTrailing ps (updateBE ps st1)
  let bb := barrierData ps bar
  let se := slEffOf ps st3 bb.2.1
  if bb.2.2.1 && hitSlEff ps bar se then
    (some { exit_idx := j, exit_price := se, result := stopLabel ps se }, st3)
  else if bb.2.2.1 then
    (some { exit_idx := j, exit_price := bb.1, result := "TP" }, st3)
  else if hitSlEff ps bar se then
    (some { exit_idx := j, exit_price := se, result := stopLabel ps se }, st3)
  else (none, st3)

/-- Full per-bar update of an open trade: excursion tracking, then —
modelled from the spec (section 4.4 step 2, absent from src/) — the
time-stop kill when configured: bars-held at least time_stop_bars and
best favourable excursion below time_stop_r R exits at the bar close
with label ZOMBIE before any barrier check; otherwise the barrier
evaluation of `stepCore`.  With `ps.ts = none` this is exactly the loop
body of src/core/backtest.py lines 176-288. -/
def stepBar (ps : TradeParams) (j : Nat) (bar : Bar) (st : OpenState) :
    Option ExitRec × OpenState :=
  let st1 := updateExcursions ps j bar st
  match ps.ts with
  | some tsc =>
      if ps.entry_idx + tsc.time_stop_bars ≤ j ∧
          st1.best_fav < tsc.time_stop_r * riskPerUnit ps then
        (some { exit_idx := j, exit_price := bar.close, result := "ZOMBIE" }, st1)
      else stepCore ps j bar st1
  | none => stepCore ps j bar st1

/-- Forward scan of an open trade over the bars after entry, starting
at index `j`, until an exit fires or the data ends
(src/core/backtest.py lines 176-288). -/
def scanLoop (ps : TradeParams) : List Bar → Nat → OpenState → Option ExitRec × OpenState
  | [], _, st => (none, st)
  | bar :: rest, j, st =>
      match stepBar ps j bar st with
      | (some ex, st1) => (some ex, st1)
      | (none, st1) => scanLoop ps rest (j + 1) st1

/-- A finalized trade record (timestamps and symbol, pure metadata
passed through from the input, are omitted). -/
structure Trade where
  entry_idx : Nat
  exit_idx : Nat
  side : Int
  entry_price : Rat
  exit_price : Rat
  result : String
  pnl : Rat
  mfe_price : Rat
  mae_price : Rat
  mfe_r : Option Rat
  mae_r : Option Rat
  time_to_mfe_bars : Nat
  holding_period_bars : Nat
deriving DecidableEq

/-- Finalize one trade: run the forward scan over `rest` (the bars
after the entry bar); if no exit fired, force-close at the final bar of
the whole dataset at its close, labelled TP when the side-adjusted raw
return is positive and SL otherwise (src/core/backtest.py lines
290-352). -/
def finishTrade (ps : TradeParams) (allBars : List Bar) (entryBar : Bar)
    (rest : List Bar) : Trade :=
  let r := scanLoop ps rest (ps.entry_idx + 1) initState
  let stF := r.2
  let ex : ExitRec :=
    match r.1 with
    | some e => e
    | none =>
        let lastBar := allBars.getLastD entryBar
        let ep := lastBar.close
        let raw := (ps.side : Rat) * (ep - ps.entry_price)
        { exit_idx := allBars.length - 1, exit_price := ep,
          result := if 0 < raw then "TP" else "SL" }
  let rpu := riskPerUnit ps
  { entry_idx := ps.entry_idx, exit_idx := ex.exit_idx, side := ps.side,
    entry_price := ps.entry_price, exit_price := ex.exit_price,
    result := ex.result,
    pnl := compute_trade_pnl ps.side ps.entry_price ex.exit_price
      ps.cfg.taker_bp ps.cfg.slippage_bp,
    mfe_price := stF.best_fav, mae_price := stF.worst_adv,
    mfe_r := if 0 < rpu then some (stF.best_fav / rpu) else none,
    mae_r := if 0 < rpu then some (stF.worst_adv / rpu) else none,
    time_to_mfe_bars := stF.time_to_mfe,
    holding_period_bars := ex.exit_idx - ps.entry_idx }

/-- Entry evaluation for one bar (src/core/backtest.py lines 70-141):
reject a zero signal, then the optional H1 prior-flow-sign, H2
divergence (extreme-only or dead-zone) and H3 ATR-percentile filters
(a NaN feature skips the entry), then require a finite positive ATR.
Returns the side and entry ATR on success. -/
def entryEval (cfg : BacktestConfig) (bar : Bar) : Option (Int × Rat) :=
  let side := bar.signal
  if side = 0 then none
  else
    let h1ok : Bool :=
      match cfg.h1_prior_flow_required_sign with
      | none => true
      | some req =>
          match bar.prior_flow_sign with
          | none => false
          | some pfs => pfs == req
    if h1ok = false then none
    else
      let h2ok : Bool :=
        match cfg.h2_div_mode with
        | none => true
        | some mode =>
            match bar.price_flow_div with
            | none => false
            | some d =>
                let dabs := |d|
                if mode == "extreme_only" then
                  match cfg.h2_div_extreme_threshold with
                  | none => true
                  | some thr => decide (thr ≤ dabs)
                else
                  match cfg.h2_div_dead_zone_low, cfg.h2_div_dead_zone_high with
                  | some lo, some hi => !(decide (lo < dabs) && decide (dabs ≤ hi))
                  | _, _ => true
      if h2ok = false then none
      else
        let h3ok : Bool :=
          match cfg.h3_atr_pct_low, cfg.h3_atr_pct_high with
          | some lo, some hi =>
              match bar.atr_pct with
              | none => false
              | some ap => decide (lo ≤ ap) && decide (ap ≤ hi)
          | _, _ => true
        if h3ok = false then none
        else
          match bar.atr with
          | none => none
          | some a => if 0 < a then some (side, a) else none

/-- Outer scan of `_simulate_trades` (src/core/backtest.py lines
57-358): iterate over bars with a cooldown counter; a positive cooldown
is decremented and the bar skipped; otherwise a passing entry opens a
trade, finalized by the forward scan over the remaining bars, and the
cooldown is re-armed to cooldown_bars.  The scan resumes at the bar
after the entry bar (the source for-loop index advances by one
regardless of where the trade exited).  `ts` is the spec-modelled
time-stop overlay (`none` for the source code as written). -/
def simAux (cfg : BacktestConfig) (ts : Option TimeStopConfig) (allBars : List Bar) :
    List Bar → Nat → Nat → List Trade
  | [], _, _ => []
  | bar :: rest, i, cooldown =>
      if 0 < cooldown then simAux cfg ts allBars rest (i + 1) (cooldown - 1)
      else
        match entryEval cfg bar with
        | none => simAux cfg ts allBars rest (i + 1) cooldown
        | some sa =>
            let ps : TradeParams :=
              { cfg := cfg, ts := ts, side := sa.1, entry_idx := i,
                entry_price := bar.close, atr := sa.2 }
            finishTrade ps allBars bar rest ::
              simAux cfg ts allBars rest (i + 1) cfg.risk.cooldown_bars

/-- The trade simulator `_simulate_trades` of src/core/backtest.py. -/
def simulate_trades (cfg : BacktestConfig) (bars : List Bar) : List Trade :=
  simAux cfg none bars bars 0 0

/-- Modelled from the spec: the simulator with the time-stop overlay of
spec section 4.4 step 2 enabled (that overlay is absent from src/). -/
def simulate_trades_ts (cfg : BacktestConfig) (tsc : TimeStopConfig)
    (bars : List Bar) : List Trade :=
  simAux cfg (some tsc) bars bars 0 0

/-- Embedding of `summarize_trades` (src/core/backtest.py lines
361-373) on the list of trade P&L values, as an ordered key-value list
mirroring the dict the source builds. -/
def summarize_trades (pnl : List Rat) : List (String × Rat) :=
  if pnl = [] then [("n", 0), ("win_rate", 0), ("pf", 0)]
  else
    let n := pnl.length
    let win_rate : Rat := ((pnl.countP fun x => decide (0 < x)) : Rat) / (n : Rat)
    let pos := (pnl.filter fun x => decide (0 < x)).sum
    let neg := (pnl.filter fun x => decide (x < 0)).sum
    let pf : Rat := if neg < 0 then pos / (-neg) else 0
    [("n", (n : Rat)), ("win_rate", win_rate), ("pf", pf)]

/-- Embedding of `compute_pf` (src/scripts/analyze_v13_filters.py lines
13-22) on the list of P&L values; `none` models the NaN it returns for
an empty frame or a non-positive gross loss. -/
def compute_pf (pnl : List Rat) : Option Rat :=
  if pnl = [] then none
  else
    let gross_pos := (pnl.filter fun x => decide (0 < x)).sum
    let gross_neg := -((pnl.filter fun x => decide (x < 0)).sum)
    if gross_neg ≤ 0 then none else some (gross_pos / gross_neg)

/-- A plain configuration with every optional overlay and filter absent
and the given cooldown, used by the concrete scenarios below. -/
def mkCfg (cb : Nat) : BacktestConfig :=
  { risk := { cooldown_bars := cb, long := { tp_mult := 2, sl_mult := 1 },
              short := { tp_mult := 2, sl_mult := 1 } },
    taker_bp := 0, slippage_bp := 0,
    h1_prior_flow_required_sign := none, h2_div_mode := none,
    h2_div_extreme_threshold := none, h2_div_dead_zone_low := none,
    h2_div_dead_zone_high := none, h3_atr_pct_low := none, h3_atr_pct_high := none,
    mfe_breakeven_r := none, trailing_enabled := false,
    trailing_arm_r := none, trailing_floor_r := none, trailing_gap_r := none }

/-- A bar with the given high, low, close and signal, entry ATR 2 and
no hypothesis-filter features. -/
def mkBar (h l c : Rat) (s : Int) : Bar :=
  { high := h, low := l, close := c, signal := s, atr := some 2,
    prior_flow_sign := none, price_flow_div := none, atr_pct := none }

/-- Configuration of the overlap scenario: cooldown of one bar. -/
def cfgC2 : BacktestConfig := mkCfg 1

/-- Bar sequence on which the first trade (entry 0) only exits at bar 4
while a second signal at bar 2 passes the cooldown check. -/
def barsC2 : List Bar :=
  [mkBar 100 100 100 1, mkBar 101 99 100 0, mkBar 100 100 100 1,
   mkBar 101 99 100 0, mkBar 105 100 104 0]

/-- The serialization property the specification asserts of the trade
list: every entry bar index is strictly beyond both the previous exit
index and its cooldown window. -/
def serialNoOverlap (cb : Nat) (ts : List Trade) : Prop :=
  List.Chain' (fun a b => a.exit_idx < b.entry_idx ∧ a.exit_idx + cb < b.entry_idx) ts

/-- Configuration of the breakeven-tie scenario: breakeven at 0.5 R. -/
def cfgBE : BacktestConfig := { mkCfg 0 with mfe_breakeven_r := some (1/2) }

/-- Bars of the breakeven-tie scenario: entry at close 100 (ATR 2, TP
104, SL 98); bar 1 reaches 1.5 favourable (breakeven activates, no
barrier touched); bar 2 has low 99 and high 105, so both the TP and the
effective stop (= entry = 100) are hit. -/
def barsBE : List Bar :=
  [mkBar 100 100 100 1, mkBar (203/2) (201/2) 101 0, mkBar 105 99 102 0]

/-- Time-stop parameters of the zombie witness scenario. -/
def tscZ : TimeStopConfig := { time_stop_bars := 3, time_stop_r := 1/2 }

/-- Trade parameters of the zombie witness scenario: long from bar 0 at
price 100 with ATR 2, so risk per unit is 2 and 0.5 R is one price
unit. -/
def psZ : TradeParams :=
  { cfg := mkCfg 0, ts := some tscZ, side := 1, entry_idx := 0,
    entry_price := 100, atr := 2 }

/-- Bar 3 of the zombie scenario: best favourable excursion 0.4 price
units, below the 0.5 R survival threshold. -/
def barZ : Bar := mkBar (502/5) 100 100 0

/-- Trade parameters of the end-of-data and stop-exit witness
scenarios: long from bar 0 at price 100 with ATR 2. -/
def psE : TradeParams :=
  { cfg := mkCfg 0, ts := none, side := 1, entry_idx := 0,
    entry_price := 100, atr := 2 }

/-- Bars of the end-of-data witness: no barrier is touched before the
data ends at close 102. -/
def barsE : List Bar := [mkBar 100 100 100 1, mkBar 101 99 102 0]

/-- Bar of the stop-exit witness: low 97 touches the SL at 98 while the
TP at 104 is untouched. -/
def barS : Bar := mkBar 100 97 98 0

/-- Configuration of the monotonicity witness: breakeven at 0.5 R and
a trailing stop arming at 1 R with floor 0 R and gap 0.5 R. -/
def cfgW6 : BacktestConfig :=
  { mkCfg 0 with
    mfe_breakeven_r := some (1/2),
    trailing_enabled := true,
    trailing_arm_r := some 1,
    trailing_floor_r := some 0,
    trailing_gap_r := some (1/2) }

/-- Trade parameters of the monotonicity witness: breakeven and
trailing both configured, long from price 100 with ATR 2. -/
def psW6 : TradeParams :=
  { cfg := cfgW6, ts := none, side := 1, entry_idx := 0, entry_price := 100, atr := 2 }

/-- Open state of the monotonicity witness: breakeven active, trailing
armed at level 101. -/
def stW6 : OpenState :=
  { best_fav := 3, worst_adv := 0, time_to_mfe := 1, be_active := true,
    trailing_armed := true, trail_sl_price := some 101 }

/-- Bar of the monotonicity witness: a new high of 104 ratchets the
trailing stop to 103. -/
def barW6 : Bar := mkBar 104 103 103 0

end Backtest

namespace ShockFlip

/-- Detector configuration of the persistence witness: band 1,
persistence 2 bars at fraction one half, dynamic thresholds off, no
location requirement. -/
def cfgW7 : ShockFlipConfig :=
  { z_window := 1, z_band := 1, jump_band := 1, persistence_bars := 2,
    persistence_min := 1/2, dynamic_enabled := false, dynamic_percentile := 99/100,
    require_extreme := false }

/-- Detector configuration of the dynamic-threshold witness: dynamic
thresholds disabled. -/
def cfgW9 : ShockFlipConfig :=
  { z_window := 2, z_band := 1, jump_band := 3, persistence_bars := 2,
    persistence_min := 1/2, dynamic_enabled := false, dynamic_percentile := 99/100,
    require_extreme := true }

end ShockFlip

namespace ShockFlip

/-- C9: when dynamic thresholds are disabled, the effective jump
threshold series returned by the threshold computation is exactly the
constant jump-band series, one entry per bar of the input. -/
theorem dynamic_disabled_constant_threshold (z : List Rat) (cfg : ShockFlipConfig)
    (h : cfg.dynamic_enabled = false) :
    compute_dynamic_jump_threshold z cfg = List.replicate z.length cfg.jump_band := by
  unfold compute_dynamic_jump_threshold
  simp [h]

/-- Witness for C9 at a concrete series and configuration. -/
theorem dynamic_disabled_constant_threshold_witness :
    cfgW9.dynamic_enabled = false ∧
    compute_dynamic_jump_threshold [3, 5, 7] cfgW9 =
      List.replicate ([3, 5, 7] : List Rat).length cfgW9.jump_band :=
  ⟨rfl, dynamic_disabled_constant_threshold [3, 5, 7] cfgW9 rfl⟩

/-- C7: the detector emits a nonzero signal at index i only if, over
the trailing persistence window ending at i (current bar included), the
fraction of bars whose z shares the sign of z(i) at magnitude at least
the z-band reaches the configured persistence fraction. -/
theorem persistence_gate_necessary (cfg : ShockFlipConfig) (z : List Rat)
    (at_upper at_lower : List Bool) (i : Nat)
    (h : shockflip_signal cfg z at_upper at_lower i ≠ 0) :
    cfg.persistence_min ≤ (persCount cfg z i : Rat) / (cfg.persistence_bars : Rat) := by
  by_cases hp : persAt cfg z i = true
  · unfold persAt at hp
    split_ifs at hp with h0 h1
    exact of_decide_eq_true hp
  · exfalso
    apply h
    have hfalse : persAt cfg z i = false := by
      cases hb : persAt cfg z i with
      | true => exact absurd hb hp
      | false => rfl
    unfold shockflip_signal
    simp [hfalse]

/-- Witness for C7: a concrete two-bar series where the signal fires
and the persistence fraction is met. -/
theorem persistence_gate_necessary_witness :
    shockflip_signal cfgW7 [2, 2] [] [] 1 ≠ 0 ∧
    cfgW7.persistence_min ≤ (persCount cfgW7 [2, 2] 1 : Rat) / (cfgW7.persistence_bars : Rat) :=
  ⟨by with_unfolding_all decide,
   persistence_gate_necessary cfgW7 [2, 2] [] [] 1 (by with_unfolding_all decide)⟩

end ShockFlip

namespace Backtest

/-- C4 counterexample: the summary produced by `summarize_trades` has
no total_pnl key at a concrete one-trade list. -/
theorem summary_missing_total_pnl :
    "total_pnl" ∉ (summarize_trades [2]).map Prod.fst := by
  with_unfolding_all decide

/-- C4 amended: for every trade P&L list the summary has exactly the
keys n, win_rate and pf, in that order, and the win_rate entry is the
fraction of trades with positive P&L. -/
theorem summary_schema_win_rate (pnl : List Rat) :
    (summarize_trades pnl).map Prod.fst = ["n", "win_rate", "pf"] ∧
    (summarize_trades pnl).lookup "win_rate" =
      some (((pnl.countP fun x => decide (0 < x)) : Rat) / (pnl.length : Rat)) := by
  unfold summarize_trades
  by_cases h : pnl = []
  · subst h
    simp [List.lookup]
  · simp [h, List.lookup]

/-- C5 counterexample: on a list with only winning trades the profit
factor of `summarize_trades` is 0 (in particular not positive, hence
not any large sentinel) and `compute_pf` returns NaN (modelled none),
not a sentinel value. -/
theorem pf_winners_no_sentinel :
    (summarize_trades [1, 2]).lookup "pf" = some 0 ∧
    compute_pf [1, 2] = none ∧
    ¬ (0 < ((summarize_trades [1, 2]).lookup "pf").getD 0) := by
  with_unfolding_all decide

/-- C5 amended: for every non-empty all-winning trade list, no
division is performed (the guard fails): `summarize_trades` reports
profit factor 0 and `compute_pf` reports NaN (modelled none). -/
theorem pf_winners_only_conventions (pnl : List Rat) (hne : pnl ≠ [])
    (hpos : ∀ x ∈ pnl, 0 < x) :
    (summarize_trades pnl).lookup "pf" = some 0 ∧ compute_pf pnl = none := by
  have hfilt : (pnl.filter fun x => decide (x < 0)) = [] := by
    rw [List.filter_eq_nil_iff]
    intro a ha
    simp only [decide_eq_true_eq, not_lt]
    exact (hpos a ha).le
  constructor
  · unfold summarize_trades
    simp [hne, hfilt, List.lookup]
  · unfold compute_pf
    simp [hne, hfilt]

end Backtest

namespace Backtest

/-- Every trade the outer scan produces from position `i` with pending
cooldown `c` enters at bar index at least `i + c`. -/
theorem simAux_entry_lb (cfg : BacktestConfig) (ts : Option TimeStopConfig)
    (allBars : List Bar) :
    ∀ (l : List Bar) (i c : Nat) (t : Trade),
      t ∈ simAux cfg ts allBars l i c → i + c ≤ t.entry_idx := by
  intro l
  induction l with
  | nil => intro i c t ht; simp [simAux] at ht
  | cons bar rest ih =>
    intro i c t ht
    rw [simAux] at ht
    by_cases hc : 0 < c
    · rw [if_pos hc] at ht
      have := ih (i + 1) (c - 1) t ht
      omega
    · rw [if_neg hc] at ht
      rcases hEntry : entryEval cfg bar with _ | sa
      · rw [hEntry] at ht
        have := ih (i + 1) c t ht
        omega
      · rw [hEntry] at ht
        simp only [List.mem_cons] at ht
        rcases ht with rfl | ht
        · have he : (finishTrade
              { cfg := cfg, ts := ts, side := sa.1, entry_idx := i,
                entry_price := bar.close, atr := sa.2 } allBars bar rest).entry_idx = i := rfl
          omega
        · have := ih (i + 1) cfg.risk.cooldown_bars t ht
          omega

/-- Consecutive trades of the outer scan have entry indices separated
by more than the cooldown. -/
theorem simAux_chain (cfg : BacktestConfig) (ts : Option TimeStopConfig)
    (allBars : List Bar) :
    ∀ (l : List Bar) (i c : Nat),
      List.Chain' (fun a b => a.entry_idx + cfg.risk.cooldown_bars < b.entry_idx)
        (simAux cfg ts allBars l i c) := by
  intro l
  induction l with
  | nil => intro i c; simp [simAux]
  | cons bar rest ih =>
    intro i c
    rw [simAux]
    by_cases hc : 0 < c
    · rw [if_pos hc]; exact ih (i + 1) (c - 1)
    · rw [if_neg hc]
      rcases hEntry : entryEval cfg bar with _ | sa
      · exact ih (i + 1) c
      · rw [List.chain'_cons']
        refine ⟨fun u hu => ?_, ih (i + 1) cfg.risk.cooldown_bars⟩
        have hmem := List.mem_of_mem_head? hu
        have hlb := simAux_entry_lb cfg ts allBars rest (i + 1) cfg.risk.cooldown_bars u hmem
        have he : (finishTrade
            { cfg := cfg, ts := ts, side := sa.1, entry_idx := i,
              entry_price := bar.close, atr := sa.2 } allBars bar rest).entry_idx = i := rfl
        omega

/-- C2 counterexample: on a concrete run the simulator produces a
second trade whose entry bar (2) precedes the first trades exit bar
(4), so the claimed no-overlap-and-cooldown-after-exit property fails:
the cooldown is armed when the trade record is appended, but the outer
scan resumes at the bar after the entry bar, not after the exit bar. -/
theorem cooldown_overlap_counterexample :
    ((simulate_trades cfgC2 barsC2).map fun t => (t.entry_idx, t.exit_idx)) =
      [(0, 4), (2, 4)] ∧
    ¬ serialNoOverlap cfgC2.risk.cooldown_bars (simulate_trades cfgC2 barsC2) := by
  have hmap : ((simulate_trades cfgC2 barsC2).map fun t => (t.entry_idx, t.exit_idx)) =
      [(0, 4), (2, 4)] := by
    with_unfolding_all decide
  refine ⟨hmap, fun hchain => ?_⟩
  have h2 : List.Chain'
      (fun x y : Nat × Nat => x.2 < y.1 ∧ x.2 + cfgC2.risk.cooldown_bars < y.1)
      ((simulate_trades cfgC2 barsC2).map fun t => (t.entry_idx, t.exit_idx)) := by
    rw [List.chain'_map]
    exact hchain
  rw [hmap] at h2
  have h3 := (List.chain'_cons.mp h2).1
  omega

/-- C2 amended: a new entry is never evaluated while the cooldown is
positive; the cooldown is armed to cooldown_bars when a trade closes
and decremented once per outer-scan bar, the scan resuming at the bar
after the previous ENTRY bar, so consecutive trades satisfy
entry(k+1) > entry(k) + cooldown_bars; entries are not serialized
against the previous trades exit index, and positions may overlap. -/
theorem cooldown_spaces_entries (cfg : BacktestConfig) (bars : List Bar) :
    List.Chain' (fun a b => a.entry_idx + cfg.risk.cooldown_bars < b.entry_idx)
      (simulate_trades cfg bars) :=
  simAux_chain cfg none bars bars 0 0

/-- C1: with a time-stop configured, on any bar where bars-held is at
least time_stop_bars while the (just updated) best favourable excursion
is below time_stop_r R, the position exits on that bar at its close
with result ZOMBIE, before and regardless of any TP or SL barrier
check, and the forward scan stops there. -/
theorem time_stop_zombie_kill (ps : TradeParams) (tsc : TimeStopConfig)
    (j : Nat) (bar : Bar) (st : OpenState)
    (hts : ps.ts = some tsc)
    (hheld : ps.entry_idx + tsc.time_stop_bars ≤ j)
    (hfav : (updateExcursions ps j bar st).best_fav < tsc.time_stop_r * riskPerUnit ps) :
    stepBar ps j bar st =
      (some { exit_idx := j, exit_price := bar.close, result := "ZOMBIE" },
        updateExcursions ps j bar st) ∧
    ∀ rest : List Bar,
      scanLoop ps (bar :: rest) j st =
        (some { exit_idx := j, exit_price := bar.close, result := "ZOMBIE" },
          updateExcursions ps j bar st) := by
  have h1 : stepBar ps j bar st =
      (some { exit_idx := j, exit_price := bar.close, result := "ZOMBIE" },
        updateExcursions ps j bar st) := by
    unfold stepBar
    rw [hts]
    simp only
    rw [if_pos ⟨hheld, hfav⟩]
  refine ⟨h1, fun rest => ?_⟩
  rw [scanLoop, h1]

/-- Witness for C1: entry at bar 0, risk per unit 2, time stop of 3
bars at 0.5 R; at bar 3 the best favourable excursion is 0.4 price
units, below 1 price unit, so the step exits ZOMBIE at the bar close
100. -/
theorem time_stop_zombie_kill_witness :
    psZ.ts = some tscZ ∧
    stepBar psZ 3 barZ initState =
      (some { exit_idx := 3, exit_price := 100, result := "ZOMBIE" },
        updateExcursions psZ 3 barZ initState) :=
  ⟨rfl,
   (time_stop_zombie_kill psZ tscZ 3 barZ initState rfl (by decide)
     (by with_unfolding_all decide)).1⟩

/-- C8: when the forward scan finds no exit before the data ends, the
trade is force-closed (by a total function, not an exception) at the
final bar of the dataset at its close price, labelled TP when the
side-adjusted raw return is positive and SL otherwise. -/
theorem end_of_data_force_close (ps : TradeParams) (allBars : List Bar)
    (entryBar : Bar) (rest : List Bar)
    (h : (scanLoop ps rest (ps.entry_idx + 1) initState).1 = none) :
    (finishTrade ps allBars entryBar rest).exit_idx = allBars.length - 1 ∧
    (finishTrade ps allBars entryBar rest).exit_price = (allBars.getLastD entryBar).close ∧
    (finishTrade ps allBars entryBar rest).result =
      (if 0 < (ps.side : Rat) * ((allBars.getLastD entryBar).close - ps.entry_price)
       then "TP" else "SL") := by
  unfold finishTrade
  simp [h]

/-- Witness for C8: a two-bar run that touches no barrier closes at
the final close 102 with label TP (raw return 2 > 0). -/
theorem end_of_data_force_close_witness :
    (scanLoop psE [mkBar 101 99 102 0] 1 initState).1 = none ∧
    ((finishTrade psE barsE (mkBar 100 100 100 1) [mkBar 101 99 102 0]).exit_idx = 1 ∧
     (finishTrade psE barsE (mkBar 100 100 100 1) [mkBar 101 99 102 0]).exit_price = 102 ∧
     (finishTrade psE barsE (mkBar 100 100 100 1) [mkBar 101 99 102 0]).result = "TP") := by
  have h : (scanLoop psE [mkBar 101 99 102 0] 1 initState).1 = none := by
    with_unfolding_all decide
  have hres := end_of_data_force_close psE barsE (mkBar 100 100 100 1) [mkBar 101 99 102 0] h
  refine ⟨h, hres.1, hres.2.1, ?_⟩
  rw [hres.2.2]
  with_unfolding_all decide

end Backtest

namespace Backtest

/-- C10: whenever the barrier evaluation of a bar produces an exit, the
exit price is the effective stop level exactly when the effective stop
was hit (including the simultaneous-hit case, whatever the label), and
the fixed TP price is used only when the TP barrier alone was hit, in
which case the label is TP. -/
theorem stop_exit_price_policy (ps : TradeParams) (j : Nat) (bar : Bar)
    (st1 : OpenState) (ex : ExitRec)
    (h : (stepCore ps j bar st1).1 = some ex) :
    (hitSlEff ps bar
        (slEffOf ps (updateTrailing ps (updateBE ps st1)) (barrierData ps bar).2.1) = true →
      ex.exit_price =
        slEffOf ps (updateTrailing ps (updateBE ps st1)) (barrierData ps bar).2.1) ∧
    (hitSlEff ps bar
        (slEffOf ps (updateTrailing ps (updateBE ps st1)) (barrierData ps bar).2.1) = false →
      ex.exit_price = (barrierData ps bar).1 ∧ ex.result = "TP" ∧
        (barrierData ps bar).2.2.1 = true) := by
  unfold stepCore at h
  by_cases htp : (barrierData ps bar).2.2.1 = true <;>
    by_cases hsl : hitSlEff ps bar
      (slEffOf ps (updateTrailing ps (updateBE ps st1)) (barrierData ps bar).2.1) = true
  · simp only [htp, hsl, Bool.and_self, if_true, Option.some.injEq] at h
    subst h
    exact ⟨fun _ => rfl, fun hf => absurd hsl (by simp [hf])⟩
  · rw [Bool.not_eq_true] at hsl
    simp only [htp, hsl, Bool.and_false, Bool.false_eq_true, if_false, if_true,
      Option.some.injEq] at h
    subst h
    exact ⟨fun ht => absurd ht (by simp [hsl]), fun _ => ⟨rfl, rfl, htp⟩⟩
  · rw [Bool.not_eq_true] at htp
    simp only [htp, hsl, Bool.false_and, Bool.false_eq_true, if_false, if_true,
      Option.some.injEq] at h
    subst h
    exact ⟨fun _ => rfl, fun hf => absurd hsl (by simp [hf])⟩
  · rw [Bool.not_eq_true] at htp hsl
    simp [htp, hsl] at h
end Backtest

namespace Backtest

/-- Witness for C10: a bar whose low 97 touches the effective stop 98
(TP untouched) exits at the effective stop price 98. -/
theorem stop_exit_price_policy_witness :
    (stepCore psE 1 barS initState).1 =
      some { exit_idx := 1, exit_price := 98, result := "SL" } ∧
    ({ exit_idx := 1, exit_price := 98, result := "SL" } : ExitRec).exit_price =
      slEffOf psE (updateTrailing psE (updateBE psE initState)) (barrierData psE barS).2.1 := by
  have h : (stepCore psE 1 barS initState).1 =
      some { exit_idx := 1, exit_price := 98, result := "SL" } := by
    with_unfolding_all decide
  exact ⟨h, (stop_exit_price_policy psE 1 barS initState _ h).1
    (by with_unfolding_all decide)⟩

/-- Labelling rule of a stop exit: BE within tolerance of entry, TP on
the profitable side of entry, SL otherwise. -/
theorem stopLabel_cases (ps : TradeParams) (x : Rat) :
    (|x - ps.entry_price| ≤ beTol → stopLabel ps x = "BE") ∧
    (beTol < |x - ps.entry_price| →
      (if ps.side = 1 then ps.entry_price ≤ x else x ≤ ps.entry_price) →
        stopLabel ps x = "TP") ∧
    (beTol < |x - ps.entry_price| →
      ¬ (if ps.side = 1 then ps.entry_price ≤ x else x ≤ ps.entry_price) →
        stopLabel ps x = "SL") := by
  refine ⟨fun h => ?_, fun h hp => ?_, fun h hp => ?_⟩
  · unfold stopLabel
    rw [if_pos h]
  · unfold stopLabel
    rw [if_neg (not_le.mpr h)]
    by_cases hs : ps.side = 1
    · rw [if_pos hs] at hp ⊢
      rw [if_pos hp]
    · rw [if_neg hs] at hp ⊢
      rw [if_pos hp]
  · unfold stopLabel
    rw [if_neg (not_le.mpr h)]
    by_cases hs : ps.side = 1
    · rw [if_pos hs] at hp ⊢
      rw [if_neg hp]
    · rw [if_neg hs] at hp ⊢
      rw [if_neg hp]

/-- C3: when the TP barrier and the effective stop are both hit on a
bar, the exit is at the effective stop with label decided by the
effective stop relation to entry (BE within tolerance, TP on the
profitable side, SL otherwise); concretely, with breakeven active
(effective stop = entry = 100) and a bar with low 99 and high 105 the
trade exits BE at price 100. -/
theorem tie_break_by_effective_stop (ps : TradeParams) (j : Nat) (bar : Bar)
    (st1 : OpenState)
    (htp : (barrierData ps bar).2.2.1 = true)
    (hsl : hitSlEff ps bar
      (slEffOf ps (updateTrailing ps (updateBE ps st1)) (barrierData ps bar).2.1) = true) :
    ((stepCore ps j bar st1).1 =
      some { exit_idx := j,
             exit_price := slEffOf ps (updateTrailing ps (updateBE ps st1)) (barrierData ps bar).2.1,
             result := stopLabel ps
               (slEffOf ps (updateTrailing ps (updateBE ps st1)) (barrierData ps bar).2.1) } ∧
     (|slEffOf ps (updateTrailing ps (updateBE ps st1)) (barrierData ps bar).2.1 - ps.entry_price| ≤ beTol →
       stopLabel ps (slEffOf ps (updateTrailing ps (updateBE ps st1)) (barrierData ps bar).2.1) = "BE") ∧
     (beTol < |slEffOf ps (updateTrailing ps (updateBE ps st1)) (barrierData ps bar).2.1 - ps.entry_price| →
       (if ps.side = 1
        then ps.entry_price ≤ slEffOf ps (updateTrailing ps (updateBE ps st1)) (barrierData ps bar).2.1
        else slEffOf ps (updateTrailing ps (updateBE ps st1)) (barrierData ps bar).2.1 ≤ ps.entry_price) →
         stopLabel ps (slEffOf ps (updateTrailing ps (updateBE ps st1)) (barrierData ps bar).2.1) = "TP") ∧
     (beTol < |slEffOf ps (updateTrailing ps (updateBE ps st1)) (barrierData ps bar).2.1 - ps.entry_price| →
       ¬ (if ps.side = 1
          then ps.entry_price ≤ slEffOf ps (updateTrailing ps (updateBE ps st1)) (barrierData ps bar).2.1
          else slEffOf ps (updateTrailing ps (updateBE ps st1)) (barrierData ps bar).2.1 ≤ ps.entry_price) →
         stopLabel ps (slEffOf ps (updateTrailing ps (updateBE ps st1)) (barrierData ps bar).2.1) = "SL")) ∧
    ((simulate_trades cfgBE barsBE).map fun t => (t.result, t.exit_price, t.exit_idx)) =
      [("BE", 100, 2)] := by
  constructor
  · refine ⟨?_, (stopLabel_cases ps _).1, (stopLabel_cases ps _).2.1,
      (stopLabel_cases ps _).2.2⟩
    unfold stepCore
    simp only [htp, hsl, Bool.and_self, if_true]
  · with_unfolding_all decide

end Backtest

namespace Backtest

/-- Witness for C3: the breakeven-tie scenario bar (low 99, high 105,
effective stop = entry = 100) resolved through the tie-break theorem:
exit at price 100 with label BE. -/
theorem tie_break_by_effective_stop_witness :
    (stepCore
      { cfg := cfgBE, ts := none, side := 1, entry_idx := 0, entry_price := 100, atr := 2 }
      2 (mkBar 105 99 102 0)
      { best_fav := 3/2, worst_adv := 0, time_to_mfe := 1, be_active := true,
        trailing_armed := false, trail_sl_price := none }).1 =
      some { exit_idx := 2, exit_price := 100, result := "BE" } := by
  have h := (tie_break_by_effective_stop
    { cfg := cfgBE, ts := none, side := 1, entry_idx := 0, entry_price := 100, atr := 2 }
    2 (mkBar 105 99 102 0)
    { best_fav := 3/2, worst_adv := 0, time_to_mfe := 1, be_active := true,
      trailing_armed := false, trail_sl_price := none }
    (by with_unfolding_all decide) (by with_unfolding_all decide)).1
  have hse : slEffOf
      { cfg := cfgBE, ts := none, side := 1, entry_idx := 0, entry_price := 100, atr := 2 }
      (updateTrailing
        { cfg := cfgBE, ts := none, side := 1, entry_idx := 0, entry_price := 100, atr := 2 }
        (updateBE
          { cfg := cfgBE, ts := none, side := 1, entry_idx := 0, entry_price := 100, atr := 2 }
          { best_fav := 3/2, worst_adv := 0, time_to_mfe := 1, be_active := true,
            trailing_armed := false, trail_sl_price := none }))
      (barrierData
        { cfg := cfgBE, ts := none, side := 1, entry_idx := 0, entry_price := 100, atr := 2 }
        (mkBar 105 99 102 0)).2.1 = 100 := by
    with_unfolding_all decide
  have hbe := h.2.1 (by with_unfolding_all decide)
  rw [hse] at h
  rw [hse] at hbe
  rw [hbe] at h
  exact h.1

/-- The excursion update leaves the breakeven flag, the trailing-armed
flag and the trailing level unchanged. -/
theorem updateExcursions_mgmt (ps : TradeParams) (j : Nat) (bar : Bar) (st : OpenState) :
    (updateExcursions ps j bar st).be_active = st.be_active ∧
    (updateExcursions ps j bar st).trailing_armed = st.trailing_armed ∧
    (updateExcursions ps j bar st).trail_sl_price = st.trail_sl_price := by
  unfold updateExcursions
  dsimp only
  split <;> split <;> exact ⟨rfl, rfl, rfl⟩

/-- The breakeven update leaves the trailing state unchanged and never
clears an active breakeven flag. -/
theorem updateBE_mgmt (ps : TradeParams) (st : OpenState) :
    (updateBE ps st).trailing_armed = st.trailing_armed ∧
    (updateBE ps st).trail_sl_price = st.trail_sl_price ∧
    (st.be_active = true → (updateBE ps st).be_active = true) := by
  unfold updateBE
  cases ps.cfg.mfe_breakeven_r with
  | none => exact ⟨rfl, rfl, fun h => h⟩
  | some thr =>
    dsimp only
    by_cases hcond : st.be_active = false ∧ 0 < riskPerUnit ps ∧
      thr * riskPerUnit ps ≤ st.best_fav
    · rw [if_pos hcond]
      exact ⟨rfl, rfl, fun _ => rfl⟩
    · rw [if_neg hcond]
      exact ⟨rfl, rfl, fun h => h⟩

/-- The trailing update leaves the breakeven flag unchanged, never
disarms the trailing stop, and only moves an existing trailing level in
the favourable direction (up for longs, down otherwise). -/
theorem updateTrailing_mgmt (ps : TradeParams) (st : OpenState) :
    (updateTrailing ps st).be_active = st.be_active ∧
    (st.trailing_armed = true → (updateTrailing ps st).trailing_armed = true) ∧
    (∀ v, st.trail_sl_price = some v →
      ∃ w, (updateTrailing ps st).trail_sl_price = some w ∧
        (ps.side = 1 → v ≤ w) ∧ (¬ ps.side = 1 → w ≤ v)) := by
  have hid : ∀ s : OpenState, s.be_active = s.be_active ∧
      (s.trailing_armed = true → s.trailing_armed = true) ∧
      (∀ v, s.trail_sl_price = some v →
        ∃ w, s.trail_sl_price = some w ∧
          (ps.side = 1 → v ≤ w) ∧ (¬ ps.side = 1 → w ≤ v)) :=
    fun s => ⟨rfl, fun h => h, fun v hv => ⟨v, hv, fun _ => le_rfl, fun _ => le_rfl⟩⟩
  unfold updateTrailing
  by_cases hen : ps.cfg.trailing_enabled = true
  · rw [if_pos hen]
    cases ps.cfg.trailing_arm_r with
    | none => exact hid st
    | some armR =>
      dsimp only
      by_cases hrpu : 0 < riskPerUnit ps
      · rw [if_pos hrpu]
        by_cases hc1 : st.trailing_armed = false ∧ armR ≤ st.best_fav / riskPerUnit ps
        · rw [if_pos hc1]
          dsimp only
          rw [if_pos rfl]
          refine ⟨rfl, fun _ => rfl, fun v hv => ?_⟩
          rw [hv]
          dsimp only
          by_cases hside : ps.side = 1
          · rw [if_pos hside]
            exact ⟨_, rfl, fun _ => le_max_left v _, fun hn => absurd hside hn⟩
          · rw [if_neg hside]
            exact ⟨_, rfl, fun hy => absurd hy hside, fun _ => min_le_left v _⟩
        · rw [if_neg hc1]
          by_cases harmed : st.trailing_armed = true
          · rw [if_pos harmed]
            refine ⟨rfl, fun _ => harmed, fun v hv => ?_⟩
            rw [hv]
            dsimp only
            by_cases hside : ps.side = 1
            · rw [if_pos hside]
              exact ⟨_, rfl, fun _ => le_max_left v _, fun hn => absurd hside hn⟩
            · rw [if_neg hside]
              exact ⟨_, rfl, fun hy => absurd hy hside, fun _ => min_le_left v _⟩
          · rw [if_neg harmed]
            exact hid st
      · rw [if_neg hrpu]
        exact hid st
  · rw [if_neg hen]
    exact hid st

end Backtest

namespace Backtest

/-- The effective stop depends only on the management fields of the
open state. -/
theorem slEffOf_congr (ps : TradeParams) (a b : OpenState) (sl : Rat)
    (h1 : a.be_active = b.be_active) (h2 : a.trailing_armed = b.trailing_armed)
    (h3 : a.trail_sl_price = b.trail_sl_price) :
    slEffOf ps a sl = slEffOf ps b sl := by
  unfold slEffOf
  rw [h1, h2, h3]

set_option maxHeartbeats 1000000 in
/-- Monotonicity of the effective stop in the management state: if the
breakeven flag and the trailing arm can only switch on, and the
trailing level can only move favourably, then the effective stop can
only move favourably (up for longs, down otherwise). -/
theorem slEffOf_mono (ps : TradeParams) (s t : OpenState) (sl : Rat)
    (hbe : s.be_active = true → t.be_active = true)
    (harm : s.trailing_armed = true → t.trailing_armed = true)
    (htr : ∀ v, s.trail_sl_price = some v →
      ∃ w, t.trail_sl_price = some w ∧ (ps.side = 1 → v ≤ w) ∧ (¬ ps.side = 1 → w ≤ v)) :
    (ps.side = 1 → slEffOf ps s sl ≤ slEffOf ps t sl) ∧
    (¬ ps.side = 1 → slEffOf ps t sl ≤ slEffOf ps s sl) := by
  constructor
  · intro hside
    unfold slEffOf
    simp only [if_pos hside]
    have hs1 : (if s.be_active = true then sl ⊔ ps.entry_price else sl) ≤
        (if t.be_active = true then sl ⊔ ps.entry_price else sl) := by
      by_cases hsb : s.be_active = true
      · rw [if_pos hsb, if_pos (hbe hsb)]
      · rw [if_neg hsb]
        by_cases htb : t.be_active = true
        · rw [if_pos htb]
          exact le_max_left sl ps.entry_price
        · rw [if_neg htb]
    by_cases hsa : s.trailing_armed = true
    · rw [if_pos hsa, if_pos (harm hsa)]
      rcases hsv : s.trail_sl_price with _ | v
      · rcases htv : t.trail_sl_price with _ | w
        · exact hs1
        · exact le_trans hs1 (le_max_left _ w)
      · obtain ⟨w, hw, hvw, _⟩ := htr v hsv
        rw [hw]
        exact max_le_max hs1 (hvw hside)
    · rw [if_neg hsa]
      by_cases hta : t.trailing_armed = true
      · rw [if_pos hta]
        rcases htv : t.trail_sl_price with _ | w
        · exact hs1
        · exact le_trans hs1 (le_max_left _ w)
      · rw [if_neg hta]
        exact hs1
  · intro hside
    unfold slEffOf
    simp only [if_neg hside]
    have hs1 : (if t.be_active = true then sl ⊓ ps.entry_price else sl) ≤
        (if s.be_active = true then sl ⊓ ps.entry_price else sl) := by
      by_cases hsb : s.be_active = true
      · rw [if_pos hsb, if_pos (hbe hsb)]
      · rw [if_neg hsb]
        by_cases htb : t.be_active = true
        · rw [if_pos htb]
          exact min_le_left sl ps.entry_price
        · rw [if_neg htb]
    by_cases hsa : s.trailing_armed = true
    · rw [if_pos hsa, if_pos (harm hsa)]
      rcases hsv : s.trail_sl_price with _ | v
      · rcases htv : t.trail_sl_price with _ | w
        · exact hs1
        · exact le_trans (min_le_left _ w) hs1
      · obtain ⟨w, hw, _, hwv⟩ := htr v hsv
        rw [hw]
        exact min_le_min hs1 (hwv hside)
    · rw [if_neg hsa]
      by_cases hta : t.trailing_armed = true
      · rw [if_pos hta]
        rcases htv : t.trail_sl_price with _ | w
        · exact hs1
        · exact le_trans (min_le_left _ w) hs1
      · rw [if_neg hta]
        exact hs1

/-- The state returned by a per-bar step is either the excursion-only
state (spec-modelled zombie exit) or the excursion state after the
breakeven and trailing updates (all barrier-evaluation branches). -/
theorem stepBar_snd (ps : TradeParams) (j : Nat) (bar : Bar) (st : OpenState) :
    (stepBar ps j bar st).2 = updateExcursions ps j bar st ∨
    (stepBar ps j bar st).2 =
      updateTrailing ps (updateBE ps (updateExcursions ps j bar st)) := by
  unfold stepBar stepCore
  cases ps.ts with
  | none =>
    dsimp only
    split_ifs <;> exact Or.inr rfl
  | some tsc =>
    dsimp only
    split_ifs <;> first | exact Or.inl rfl | exact Or.inr rfl

end Backtest

namespace Backtest

/-- C6: across one per-bar step of an open trade, an active breakeven
flag stays active, an armed trailing stop stays armed, the effective
stop never decreases for a long (side 1) and never increases
otherwise, and the trailing level, once set, only ratchets in the
favourable direction. -/
theorem effective_stop_monotone (ps : TradeParams) (j : Nat) (bar : Bar)
    (st : OpenState) (sl : Rat) :
    (st.be_active = true → ((stepBar ps j bar st).2).be_active = true) ∧
    (st.trailing_armed = true → ((stepBar ps j bar st).2).trailing_armed = true) ∧
    (ps.side = 1 → slEffOf ps st sl ≤ slEffOf ps ((stepBar ps j bar st).2) sl) ∧
    (¬ ps.side = 1 → slEffOf ps ((stepBar ps j bar st).2) sl ≤ slEffOf ps st sl) ∧
    (∀ v, st.trail_sl_price = some v →
      ∃ w, ((stepBar ps j bar st).2).trail_sl_price = some w ∧
        (ps.side = 1 → v ≤ w) ∧ (¬ ps.side = 1 → w ≤ v)) := by
  obtain ⟨he1, he2, he3⟩ := updateExcursions_mgmt ps j bar st
  obtain ⟨hb1, hb2, hb3⟩ := updateBE_mgmt ps (updateExcursions ps j bar st)
  obtain ⟨ht1, ht2, ht3⟩ := updateTrailing_mgmt ps (updateBE ps (updateExcursions ps j bar st))
  have hbe13 : st.be_active = true →
      (updateTrailing ps (updateBE ps (updateExcursions ps j bar st))).be_active = true := by
    intro h
    rw [ht1]
    exact hb3 (by rw [he1]; exact h)
  have harm13 : st.trailing_armed = true →
      (updateTrailing ps (updateBE ps (updateExcursions ps j bar st))).trailing_armed = true := by
    intro h
    exact ht2 (by rw [hb1, he2]; exact h)
  have htr13 : ∀ v, st.trail_sl_price = some v →
      ∃ w, (updateTrailing ps (updateBE ps (updateExcursions ps j bar st))).trail_sl_price = some w ∧
        (ps.side = 1 → v ≤ w) ∧ (¬ ps.side = 1 → w ≤ v) := by
    intro v hv
    exact ht3 v (by rw [hb2, he3]; exact hv)
  rcases stepBar_snd ps j bar st with hS | hS <;> rw [hS]
  · have hcongr : slEffOf ps (updateExcursions ps j bar st) sl = slEffOf ps st sl :=
      slEffOf_congr ps _ st sl he1 he2 he3
    refine ⟨fun h => by rw [he1]; exact h, fun h => by rw [he2]; exact h,
      fun _ => by rw [hcongr], fun _ => by rw [hcongr],
      fun v hv => ⟨v, by rw [he3]; exact hv, fun _ => le_rfl, fun _ => le_rfl⟩⟩
  · have hmono := slEffOf_mono ps st
      (updateTrailing ps (updateBE ps (updateExcursions ps j bar st))) sl hbe13 harm13 htr13
    exact ⟨hbe13, harm13, hmono.1, hmono.2, htr13⟩

/-- Witness for C6: with breakeven active and trailing armed at 101 on
a long trade, after a bar making a new high of 104 the breakeven flag
is still active, the effective stop did not decrease, and the trailing
level ratcheted to some level at least 101. -/
theorem effective_stop_monotone_witness :
    ((stepBar psW6 1 barW6 stW6).2).be_active = true ∧
    slEffOf psW6 stW6 98 ≤ slEffOf psW6 ((stepBar psW6 1 barW6 stW6).2) 98 ∧
    ∃ w, ((stepBar psW6 1 barW6 stW6).2).trail_sl_price = some w ∧ 101 ≤ w := by
  have h := effective_stop_monotone psW6 1 barW6 stW6 98
  obtain ⟨w, hw, h1, _⟩ := h.2.2.2.2 101 rfl
  exact ⟨h.1 rfl, h.2.2.1 rfl, w, hw, h1 rfl⟩

end Backtest

namespace Backtest

/-- Witness for C5 at the concrete winners-only list [1, 2]. -/
theorem pf_winners_only_conventions_witness :
    (([1, 2] : List Rat) ≠ [] ∧ ∀ x ∈ ([1, 2] : List Rat), 0 < x) ∧
    ((summarize_trades [1, 2]).lookup "pf" = some 0 ∧ compute_pf [1, 2] = none) :=
  ⟨⟨by with_unfolding_all decide, by with_unfolding_all decide⟩,
   pf_winners_only_conventions [1, 2] (by with_unfolding_all decide)
     (by with_unfolding_all decide)⟩

end Backtest
